import Mathlib

/-!
Shallow embedding of the hqs-privilege-service core (Go) for verification.

The repository layer (`app/handler/handler.go`, repository part) stores
`Privilege` documents in a mongo collection and `User` documents in a second
collection.  We model the two collections as Lean lists inside a `State`
record, and each mongo primitive by its documented semantics:

* `InsertOne`          — append to the list;
* `FindOne filter`     — first element satisfying the filter, error
                         "mongo: no documents in result" when there is none;
* `UpdateOne filter s` — apply the `$set` document to the FIRST element
                         matching the filter; no error when nothing matches;
* `UpdateMany filter s`— apply the `$set` document to ALL matching elements;
* `DeleteOne filter`   — remove the first matching element.

Nondeterministic inputs of the Go code are passed explicitly: `uuid.NewV4()`
becomes a `freshId : String` argument and `time.Now()` a `now : Nat` argument
(0 plays the role of Go's zero time).  Fallible Go functions returning
`error` become `Except String _`, carrying the exact `errors.New` message of
the source; an `Except.error` result performs no write, matching the Go code
which returns before touching the collection.  The proto `Privilege` message
and the repository `Privilege` struct are identified: `MarshalPrivilege` /
`UnmarshalPrivilege` copy every field one-to-one (with a lossless timestamp
conversion), so both sides carry the same data.
-/

deriving instance DecidableEq for Except

/-- Repository `Privilege` struct (handler.go, repository part). -/
structure Privilege where
  id : String
  name : String
  viewAllUsers : Bool
  createUser : Bool
  managePrivileges : Bool
  deleteUser : Bool
  blockUser : Bool
  sendResetPasswordEmail : Bool
  createdAt : Nat
  updatedAt : Nat
  default : Bool
  root : Bool
deriving DecidableEq, Repr

/-- A document of the external "users" collection: only the fields the
privilege service ever touches (`privilege_id`, `updated_at`) plus an
identifying key. -/
structure User where
  id : String
  privilegeId : String
  updatedAt : Nat
deriving DecidableEq, Repr

/-- The two mongo collections owned (respectively written) by the service. -/
structure State where
  privileges : List Privilege
  users : List User
deriving DecidableEq, Repr

def emptyState : State := { privileges := [], users := [] }

/-- Semantics of mongo `UpdateOne`: update the first element matching the
filter, leave the rest untouched; matching nothing is not an error. -/
def updateFirst (pred : α → Bool) (f : α → α) : List α → List α
  | [] => []
  | x :: xs => if pred x then f x :: xs else x :: updateFirst pred f xs

/-- Semantics of mongo `DeleteOne`: remove the first element matching the
filter. -/
def deleteFirst (pred : α → Bool) : List α → List α
  | [] => []
  | x :: xs => if pred x then xs else x :: deleteFirst pred xs

/-- Go `strings.ToLower` restricted to ASCII action strings (char-wise
lowering, as Go does for ASCII input). -/
def toLowerString (s : String) : String := ⟨s.data.map Char.toLower⟩

namespace Privilege

/-- Model of `Privilege.validate` (handler.go lines 313-381), with the exact error
strings of the source, including the "bot allowed" typo of the update
branch. -/
def validate (p : Privilege) (action : String) : Except String Unit :=
  if action == "create" then
    if p.createUser && !p.viewAllUsers then
      Except.error "Create access not allowed without view access"
    else if p.deleteUser && !p.viewAllUsers then
      Except.error "Delete access not allowed without view access"
    else if p.managePrivileges && !p.viewAllUsers then
      Except.error "Manage privileges access not allowed without view access"
    else if p.blockUser && !p.viewAllUsers then
      Except.error "Block access not allowed without view access"
    else if p.sendResetPasswordEmail && !p.viewAllUsers then
      Except.error "Send reset email access not allowed without view access"
    else if p.name == "" then
      Except.error "Name is required"
    else if p.id == "" then
      Except.error "Name is required"
    else
      Except.ok ()
  else if action == "update" then
    if p.default || p.root then
      Except.error "Cannot update root privilege"
    else if p.createUser && !p.viewAllUsers then
      Except.error "Create access bot allowed without view access"
    else if p.deleteUser && !p.viewAllUsers then
      Except.error "Delete access not allowed without view access"
    else if p.managePrivileges && !p.viewAllUsers then
      Except.error "Manage privileges access not allowed without view access"
    else if p.blockUser && !p.viewAllUsers then
      Except.error "Block access not allowed without view access"
    else if p.sendResetPasswordEmail && !p.viewAllUsers then
      Except.error "Send reset email access not allowed without view access"
    else if p.name == "" then
      Except.error "Name is required"
    else if p.id == "" then
      Except.error "Name is required"
    else
      Except.ok ()
  else if action == "delete" then
    if p.default || p.root then
      Except.error "Cannot delete root privilege"
    else
      Except.ok ()
  else
    Except.error "Unknown action"

/-- Model of `Privilege.prepare` (handler.go lines 383-397): clears the singleton
flags and stamps the timestamps before a create/update. -/
def prepare (p : Privilege) (action : String) (now : Nat) : Privilege :=
  if toLowerString action == "create" then
    { p with default := false, root := false, createdAt := now, updatedAt := now }
  else if toLowerString action == "update" then
    { p with default := false, root := false, updatedAt := now }
  else
    p

end Privilege

namespace MongoRepository

/-- Model of `MongoRepository.Get`: `FindOne {id: priv.ID}`. -/
def Get (st : State) (priv : Privilege) : Except String Privilege :=
  match st.privileges.find? (fun r => r.id == priv.id) with
  | none => Except.error "mongo: no documents in result"
  | some r => Except.ok r

/-- Model of `MongoRepository.GetDefault`: `FindOne {default: true}`. -/
def GetDefault (st : State) : Except String Privilege :=
  match st.privileges.find? (fun r => r.default) with
  | none => Except.error "mongo: no documents in result"
  | some r => Except.ok r

/-- Model of `MongoRepository.GetRoot`: `FindOne {root: true}`. -/
def GetRoot (st : State) : Except String Privilege :=
  match st.privileges.find? (fun r => r.root) with
  | none => Except.error "mongo: no documents in result"
  | some r => Except.ok r

/-- Model of `MongoRepository.GetAll`: every privilege, in collection order. -/
def GetAll (st : State) : Except String (List Privilege) :=
  Except.ok st.privileges

/-- Model of `MongoRepository.Create` (handler.go lines 399-415).  Besides the new
state it returns the prepared record so a caller can read the assigned
id/timestamps, matching the Go code's in-place mutation of `priv`. -/
def Create (freshId : String) (now : Nat) (st : State) (priv : Privilege) :
    Except String (State × Privilege) :=
  let priv1 := { priv with id := freshId }
  let priv2 := priv1.prepare "create" now
  match priv2.validate "create" with
  | Except.error e => Except.error e
  | Except.ok _ =>
      Except.ok ({ st with privileges := st.privileges ++ [priv2] }, priv2)

/-- The record literal `CreateDefault` inserts (handler.go lines 424-434):
singleton flag set, every capability flag false, timestamps never set (so
they stay at the zero time, modelled as 0). -/
def defaultRecord (freshId : String) : Privilege :=
  { id := freshId
    name := "Default"
    viewAllUsers := false
    createUser := false
    managePrivileges := false
    deleteUser := false
    blockUser := false
    sendResetPasswordEmail := false
    createdAt := 0
    updatedAt := 0
    default := true
    root := false }

/-- The record literal `CreateRoot` inserts (handler.go lines 451-461):
singleton flag set and every capability flag true. -/
def rootRecord (freshId : String) : Privilege :=
  { id := freshId
    name := "Root"
    viewAllUsers := true
    createUser := true
    managePrivileges := true
    deleteUser := true
    blockUser := true
    sendResetPasswordEmail := true
    createdAt := 0
    updatedAt := 0
    default := false
    root := true }

/-- Model of `MongoRepository.CreateDefault` (handler.go lines 417-442). -/
def CreateDefault (freshId : String) (st : State) : Except String State :=
  match GetDefault st with
  | Except.ok _ => Except.error "Default privilege already exists"
  | Except.error _ =>
      let priv := defaultRecord freshId
      Except.ok { st with privileges := st.privileges ++ [priv] }

/-- Model of `MongoRepository.CreateRoot` (handler.go lines 444-469). -/
def CreateRoot (freshId : String) (st : State) : Except String State :=
  match GetRoot st with
  | Except.ok _ => Except.error "Root privilege already exists"
  | Except.error _ =>
      let priv := rootRecord freshId
      Except.ok { st with privileges := st.privileges ++ [priv] }

/-- The `$set` document of `MongoRepository.Update`: name, the six
capability flags and `updated_at` — and nothing else. -/
def updateSet (priv : Privilege) (now : Nat) (r : Privilege) : Privilege :=
  { r with
    name := priv.name
    viewAllUsers := priv.viewAllUsers
    createUser := priv.createUser
    managePrivileges := priv.managePrivileges
    deleteUser := priv.deleteUser
    blockUser := priv.blockUser
    sendResetPasswordEmail := priv.sendResetPasswordEmail
    updatedAt := now }

/-- Model of `MongoRepository.Update` (handler.go lines 471-503): `prepare` FIRST,
then `validate`, then `UpdateOne {id: priv.ID}` with the `$set` above.
`UpdateOne` is not an error when nothing matches. -/
def Update (now : Nat) (st : State) (priv : Privilege) : Except String State :=
  let priv1 := priv.prepare "update" now
  match priv1.validate "update" with
  | Except.error e => Except.error e
  | Except.ok _ =>
      let privileges := updateFirst (fun r => r.id == priv1.id) (updateSet priv1 now) st.privileges
      Except.ok { st with privileges := privileges }

/-- Model of `MongoRepository.Delete` (handler.go lines 554-588): validate the INPUT
record's flags, look up the default privilege (propagating its error before
any write), reassign every user referencing `priv.ID` to the default
privilege's id, then `DeleteOne {id: priv.ID}`. -/
def Delete (now : Nat) (st : State) (priv : Privilege) : Except String State :=
  match priv.validate "delete" with
  | Except.error e => Except.error e
  | Except.ok _ =>
      match GetDefault st with
      | Except.error e => Except.error e
      | Except.ok defaultPrivilege =>
          let users := st.users.map (fun u =>
            if u.privilegeId == priv.id then
              { u with privilegeId := defaultPrivilege.id, updatedAt := now }
            else u)
          let privileges := deleteFirst (fun r => r.id == priv.id) st.privileges
          Except.ok { privileges := privileges, users := users }

end MongoRepository

/-! ## Authorization gate (`Handler.validateTokenHelper`, handler.go 138-199) -/

/-- The capability set the identity authority returns for a token (only the
field the gate inspects). -/
structure TokenInfo where
  managePrivileges : Bool
deriving DecidableEq, Repr

/-- The gRPC client obtained from a successful dial: its `Ping` liveness
check and its `ValidateToken` operation. -/
structure UserClient where
  ping : Except String Unit
  validateToken : String → Except String TokenInfo

/-- The environment the gate reads: the two env vars and the result of
dialling the user service. -/
structure AuthEnv where
  userServiceIP : Option String
  userServicePort : Option String
  dial : Except String UserClient

/-- Request metadata: `metadata.MD` is a map from header name to a list of
values; an absent key yields the empty list, as Go's map indexing does. -/
def mdGet (meta : List (String × List String)) (key : String) : List String :=
  match meta.find? (fun kv => kv.1 == key) with
  | some kv => kv.2
  | none => []

/-- Go `strings.Trim(s, " ")`: strip leading and trailing SPACE characters
only (Go trims exactly the characters of the cutset, here a single
space). -/
def trimSpaces (s : String) : String :=
  ⟨((s.data.dropWhile (· == ' ')).reverse.dropWhile (· == ' ')).reverse⟩

/-- Model of `Handler.validateTokenHelper`: the request context is modelled by
`md = none` when `metadata.FromIncomingContext` reports no metadata, and
`some meta` otherwise.  Error strings are those of the source. -/
def validateTokenHelper (env : AuthEnv) (md : Option (List (String × List String))) :
    Except String Unit :=
  match md with
  | none => Except.error "Could not validate token"
  | some meta =>
      let token := mdGet meta "token"
      if token.length == 0 then
        Except.error "Missing token header in context"
      else if trimSpaces (token.headD "") == "" then
        Except.error "Token is empty"
      else
        match env.userServiceIP with
        | none => Except.error "Required USER_SERVICE_IP"
        | some _ =>
            match env.userServicePort with
            | none => Except.error "Required USER_SERVICE_PORT"
            | some _ =>
                match env.dial with
                | Except.error e => Except.error e
                | Except.ok userClient =>
                    match userClient.ping with
                    | Except.error e => Except.error e
                    | Except.ok _ =>
                        match userClient.validateToken (token.headD "") with
                        | Except.error e => Except.error e
                        | Except.ok resultToken =>
                            if resultToken.managePrivileges == false then
                              Except.error "User not allowed to manage privileges"
                            else
                              Except.ok ()

/-! ## Read handlers (`Handler.Get`/`GetRoot`/`GetDefault`/`GetAll`,
handler.go 66-120).  Each builds a populated response `rep` and then
returns a freshly constructed `&privilegeProto.Response{}` instead, exactly
as the source does. -/

/-- Proto `privilegeProto.Response`: proto zero value has `Privilege = nil`
(`none`) and `Privileges = nil` (`[]`). -/
structure Response where
  privilege : Option Privilege
  privileges : List Privilege
deriving DecidableEq, Repr

namespace Handler

/-- Model of `Handler.Get` (handler.go 66-78). -/
def Get (st : State) (req : Privilege) : Except String Response :=
  match MongoRepository.Get st req with
  | Except.error e => Except.error e
  | Except.ok priv =>
      let _rep : Response := { privilege := some priv, privileges := [] }
      Except.ok { privilege := none, privileges := [] }

/-- Model of `Handler.GetRoot` (handler.go 80-92). -/
def GetRoot (st : State) : Except String Response :=
  match MongoRepository.GetRoot st with
  | Except.error e => Except.error e
  | Except.ok priv =>
      let _rep : Response := { privilege := some priv, privileges := [] }
      Except.ok { privilege := none, privileges := [] }

/-- Model of `Handler.GetDefault` (handler.go 94-106). -/
def GetDefault (st : State) : Except String Response :=
  match MongoRepository.GetDefault st with
  | Except.error e => Except.error e
  | Except.ok priv =>
      let _rep : Response := { privilege := some priv, privileges := [] }
      Except.ok { privilege := none, privileges := [] }

/-- Model of `Handler.GetAll` (handler.go 108-120). -/
def GetAll (st : State) : Except String Response :=
  match MongoRepository.GetAll st with
  | Except.error e => Except.error e
  | Except.ok privs =>
      let _rep : Response := { privilege := none, privileges := privs }
      Except.ok { privilege := none, privileges := [] }

end Handler

/-! ## Operation sequences (for the store-wide singleton invariant) -/

/-- One store operation together with its nondeterministic environment
(the caller-supplied record, the uuid the store would draw, the clock). -/
inductive Op where
  | create (priv : Privilege) (freshId : String) (now : Nat)
  | createDefault (freshId : String)
  | createRoot (freshId : String)
  | update (priv : Privilege) (now : Nat)
  | delete (priv : Privilege) (now : Nat)

/-- Run one operation; a failing operation leaves the collections as they
were (the Go code returns before any write on every error path). -/
def Op.apply (st : State) : Op → State
  | Op.create priv freshId now =>
      match MongoRepository.Create freshId now st priv with
      | Except.ok (st', _) => st'
      | Except.error _ => st
  | Op.createDefault freshId =>
      match MongoRepository.CreateDefault freshId st with
      | Except.ok st' => st'
      | Except.error _ => st
  | Op.createRoot freshId =>
      match MongoRepository.CreateRoot freshId st with
      | Except.ok st' => st'
      | Except.error _ => st
  | Op.update priv now =>
      match MongoRepository.Update now st priv with
      | Except.ok st' => st'
      | Except.error _ => st
  | Op.delete priv now =>
      match MongoRepository.Delete now st priv with
      | Except.ok st' => st'
      | Except.error _ => st

/-- Run a sequence of operations from a starting state. -/
def runOps (st : State) : List Op → State
  | [] => st
  | op :: ops => runOps (Op.apply st op) ops

/-- Number of stored records carrying `default = true`. -/
def countDefault (st : State) : Nat := st.privileges.countP (fun r => r.default)

/-- Number of stored records carrying `root = true`. -/
def countRoot (st : State) : Nat := st.privileges.countP (fun r => r.root)

/-! ## Helper lemmas -/

theorem prepare_create_eq (p : Privilege) (now : Nat) :
    p.prepare "create" now =
      { p with default := false, root := false, createdAt := now, updatedAt := now } := by
  have h : (toLowerString "create" == "create") = true := by decide
  simp [Privilege.prepare, h]

theorem prepare_update_eq (p : Privilege) (now : Nat) :
    p.prepare "update" now = { p with default := false, root := false, updatedAt := now } := by
  have h1 : (toLowerString "update" == "create") = false := by decide
  have h2 : (toLowerString "update" == "update") = true := by decide
  simp [Privilege.prepare, h1, h2]

theorem validate_create_eq (p : Privilege) :
    p.validate "create" =
      (if p.createUser && !p.viewAllUsers then
        Except.error "Create access not allowed without view access"
      else if p.deleteUser && !p.viewAllUsers then
        Except.error "Delete access not allowed without view access"
      else if p.managePrivileges && !p.viewAllUsers then
        Except.error "Manage privileges access not allowed without view access"
      else if p.blockUser && !p.viewAllUsers then
        Except.error "Block access not allowed without view access"
      else if p.sendResetPasswordEmail && !p.viewAllUsers then
        Except.error "Send reset email access not allowed without view access"
      else if p.name == "" then
        Except.error "Name is required"
      else if p.id == "" then
        Except.error "Name is required"
      else
        Except.ok ()) := by
  have s1 : (("create" : String) == "create") = true := by decide
  simp only [Privilege.validate, s1, if_true]

theorem validate_update_eq (p : Privilege) :
    p.validate "update" =
      (if p.default || p.root then
        Except.error "Cannot update root privilege"
      else if p.createUser && !p.viewAllUsers then
        Except.error "Create access bot allowed without view access"
      else if p.deleteUser && !p.viewAllUsers then
        Except.error "Delete access not allowed without view access"
      else if p.managePrivileges && !p.viewAllUsers then
        Except.error "Manage privileges access not allowed without view access"
      else if p.blockUser && !p.viewAllUsers then
        Except.error "Block access not allowed without view access"
      else if p.sendResetPasswordEmail && !p.viewAllUsers then
        Except.error "Send reset email access not allowed without view access"
      else if p.name == "" then
        Except.error "Name is required"
      else if p.id == "" then
        Except.error "Name is required"
      else
        Except.ok ()) := by
  have s1 : (("update" : String) == "create") = false := by decide
  have s2 : (("update" : String) == "update") = true := by decide
  simp only [Privilege.validate, s1, s2, if_true, Bool.false_eq_true, if_false]

theorem validate_delete_eq (p : Privilege) :
    p.validate "delete" =
      (if p.default || p.root then
        Except.error "Cannot delete root privilege"
      else
        Except.ok ()) := by
  have s1 : (("delete" : String) == "create") = false := by decide
  have s2 : (("delete" : String) == "update") = false := by decide
  have s3 : (("delete" : String) == "delete") = true := by decide
  simp only [Privilege.validate, s1, s2, s3, if_true, Bool.false_eq_true, if_false]

theorem updateFirst_length (pred : α → Bool) (f : α → α) (l : List α) :
    (updateFirst pred f l).length = l.length := by
  induction l with
  | nil => rfl
  | cons x xs ih => cases hx : pred x <;> simp [updateFirst, hx, ih]

theorem updateFirst_getElem (pred : α → Bool) (f : α → α) (l : List α) (i : Nat)
    (hi : i < l.length) (hi' : i < (updateFirst pred f l).length) :
    (updateFirst pred f l)[i] = l[i] ∨
      ((updateFirst pred f l)[i] = f l[i] ∧ pred l[i] = true) := by
  induction l generalizing i with
  | nil => simp at hi
  | cons x xs ih =>
    cases hx : pred x with
    | true =>
      cases i with
      | zero => right; simp [updateFirst, hx]
      | succ j => left; simp [updateFirst, hx]
    | false =>
      cases i with
      | zero => left; simp [updateFirst, hx]
      | succ j =>
        have hj : j < xs.length := by simpa using hi
        have hj' : j < (updateFirst pred f xs).length := by
          simpa [updateFirst_length] using hj
        simpa [updateFirst, hx] using ih j hj hj'

theorem updateFirst_of_none_matches (pred : α → Bool) (f : α → α) (l : List α)
    (h : ∀ x ∈ l, pred x = false) : updateFirst pred f l = l := by
  induction l with
  | nil => rfl
  | cons x xs ih =>
    have hx : pred x = false := h x (by simp)
    simp [updateFirst, hx, ih fun y hy => h y (by simp [hy])]

theorem updateFirst_countP (pred q : α → Bool) (f : α → α)
    (hf : ∀ x, q (f x) = q x) (l : List α) :
    (updateFirst pred f l).countP q = l.countP q := by
  induction l with
  | nil => rfl
  | cons x xs ih => cases hx : pred x <;> simp [updateFirst, hx, List.countP_cons, ih, hf]

theorem deleteFirst_countP_le (pred q : α → Bool) (l : List α) :
    (deleteFirst pred l).countP q ≤ l.countP q := by
  induction l with
  | nil => simp [deleteFirst]
  | cons x xs ih =>
    cases hx : pred x with
    | true =>
      simp only [deleteFirst, hx, if_pos, List.countP_cons]
      exact Nat.le_add_right _ _
    | false =>
      simp only [deleteFirst, hx, if_neg, Bool.false_eq_true, not_false_iff, List.countP_cons]
      exact Nat.add_le_add_right ih _

theorem mem_deleteFirst_of_pred_false {pred : α → Bool} {l : List α} {a : α}
    (ha : a ∈ l) (hp : pred a = false) : a ∈ deleteFirst pred l := by
  induction l with
  | nil => simp at ha
  | cons x xs ih =>
    cases hx : pred x with
    | true =>
      rcases List.mem_cons.mp ha with h | h
      · subst h; rw [hx] at hp; cases hp
      · simpa [deleteFirst, hx] using h
    | false =>
      rcases List.mem_cons.mp ha with h | h
      · subst h; simp [deleteFirst, hx]
      · simp [deleteFirst, hx, ih h]

theorem deleteFirst_id_absent (l : List Privilege) (pid : String)
    (hnodup : (l.map Privilege.id).Nodup) (hp : ∃ p ∈ l, p.id = pid) :
    ∀ r ∈ deleteFirst (fun r => r.id == pid) l, r.id ≠ pid := by
  induction l with
  | nil => simp [deleteFirst]
  | cons x xs ih =>
    rw [List.map_cons, List.nodup_cons] at hnodup
    obtain ⟨hx_notin, hnodup'⟩ := hnodup
    cases hx : (x.id == pid) with
    | true =>
      have hxid : x.id = pid := by simpa using hx
      intro r hr hrc
      have : r.id ∈ xs.map Privilege.id := by
        simp only [deleteFirst, hx, if_pos] at hr
        exact List.mem_map_of_mem Privilege.id hr
      rw [hrc, ← hxid] at this
      exact hx_notin this
    | false =>
      have hxid : x.id ≠ pid := by simpa using hx
      obtain ⟨p, hpmem, hpid⟩ := hp
      have hpxs : p ∈ xs := by
        rcases List.mem_cons.mp hpmem with h | h
        · subst h; exact absurd hpid hxid
        · exact h
      intro r hr
      simp only [deleteFirst, hx] at hr
      rcases List.mem_cons.mp (by simpa using hr) with h | h
      · subst h; exact hxid
      · exact ih hnodup' ⟨p, hpxs, hpid⟩ r h

/-- A privilege record with the given id, name and singleton flags; all
capability flags false and both timestamps at the zero time. -/
def samplePriv (i n : String) (d r : Bool) : Privilege :=
  { id := i
    name := n
    viewAllUsers := false
    createUser := false
    managePrivileges := false
    deleteUser := false
    blockUser := false
    sendResetPasswordEmail := false
    createdAt := 0
    updatedAt := 0
    default := d
    root := r }

/-- C10: for every successful invocation of the read handlers Get, GetRoot,
GetDefault and GetAll, the response returned to the caller carries no
privilege data (`Privilege`/`Privileges` unset): the handler populates a
local response from the repository result and then returns a freshly
constructed empty response instead. -/
theorem C10_read_handlers_return_empty_response (st : State) (req : Privilege)
    (resp1 resp2 resp3 resp4 : Response) :
    (Handler.Get st req = Except.ok resp1 →
        resp1.privilege = none ∧ resp1.privileges = []) ∧
    (Handler.GetRoot st = Except.ok resp2 →
        resp2.privilege = none ∧ resp2.privileges = []) ∧
    (Handler.GetDefault st = Except.ok resp3 →
        resp3.privilege = none ∧ resp3.privileges = []) ∧
    (Handler.GetAll st = Except.ok resp4 →
        resp4.privilege = none ∧ resp4.privileges = []) := by
  refine ⟨?_, ?_, ?_, ?_⟩
  · intro h
    cases hg : MongoRepository.Get st req <;> simp [Handler.Get, hg] at h
    simp [← h]
  · intro h
    cases hg : MongoRepository.GetRoot st <;> simp [Handler.GetRoot, hg] at h
    simp [← h]
  · intro h
    cases hg : MongoRepository.GetDefault st <;> simp [Handler.GetDefault, hg] at h
    simp [← h]
  · intro h
    cases hg : MongoRepository.GetAll st <;> simp [Handler.GetAll, hg] at h
    simp [← h]

theorem C10_read_handlers_return_empty_response_witness :
    (Handler.Get { privileges := [samplePriv "a" "A" false false], users := [] }
        (samplePriv "a" "A" false false) =
      Except.ok { privilege := none, privileges := [] }) ∧
    (({ privilege := none, privileges := [] } : Response).privilege = none ∧
      ({ privilege := none, privileges := [] } : Response).privileges = []) := by
  refine ⟨by decide, ?_⟩
  exact (C10_read_handlers_return_empty_response
    { privileges := [samplePriv "a" "A" false false], users := [] }
    (samplePriv "a" "A" false false)
    { privilege := none, privileges := [] } { privilege := none, privileges := [] }
    { privilege := none, privileges := [] } { privilege := none, privileges := [] }).1
    (by decide)

/-- C1 (code bug): `Update` runs `prepare("update")` — which clears the
`Default`/`Root` flags — BEFORE `validate("update")` checks them, so the
protected-record check on update is dead code.  A request honestly echoing
the stored default record (flags included) with a new name is accepted:
the call returns success and the stored default record's name is changed,
contradicting "fails with ProtectedRecordError and storage unchanged". -/
theorem C1_update_of_protected_default_record_succeeds :
    MongoRepository.Update 7
        { privileges := [samplePriv "default-id" "Default" true false], users := [] }
        (samplePriv "default-id" "Hacked" true false) =
      Except.ok
        { privileges := [{ samplePriv "default-id" "Hacked" true false with updatedAt := 7 }],
          users := [] } ∧
    ({ privileges := [{ samplePriv "default-id" "Hacked" true false with updatedAt := 7 }],
        users := [] } : State) ≠
      { privileges := [samplePriv "default-id" "Default" true false], users := [] } := by
  constructor
  · decide
  · decide

/-- C7 counterexample: a well-formed update whose id ("missing-id") matches
no stored record returns success, not a NotFoundError — `UpdateOne` matches
nothing and the code never inspects the matched count. -/
theorem C7_counterexample_update_missing_id_succeeds :
    MongoRepository.Update 5 emptyState (samplePriv "missing-id" "Support" false false) =
      Except.ok emptyState := by decide

/-- C7 amended: for every valid privilege input whose id matches no stored
record, update returns success (no NotFoundError is reported) and the store
is unchanged. -/
theorem C7_update_missing_id_noop_success (st : State) (q : Privilege) (now : Nat)
    (hmiss : ∀ r ∈ st.privileges, r.id ≠ q.id)
    (hname : q.name ≠ "") (hid : q.id ≠ "")
    (h1 : q.createUser = true → q.viewAllUsers = true)
    (h2 : q.deleteUser = true → q.viewAllUsers = true)
    (h3 : q.managePrivileges = true → q.viewAllUsers = true)
    (h4 : q.blockUser = true → q.viewAllUsers = true)
    (h5 : q.sendResetPasswordEmail = true → q.viewAllUsers = true) :
    MongoRepository.Update now st q = Except.ok st := by
  have hval : (q.prepare "update" now).validate "update" = Except.ok () := by
    rw [prepare_update_eq]
    cases hcu : q.createUser <;> cases hdu : q.deleteUser <;>
      cases hmp : q.managePrivileges <;> cases hbu : q.blockUser <;>
      cases hse : q.sendResetPasswordEmail <;>
      simp_all [Privilege.validate]
  have hpred : ∀ r ∈ st.privileges,
      (r.id == (q.prepare "update" now).id) = false := by
    intro r hr
    rw [prepare_update_eq]
    simpa using hmiss r hr
  simp only [MongoRepository.Update, hval,
    updateFirst_of_none_matches _ _ _ hpred]

theorem C7_update_missing_id_noop_success_witness :
    MongoRepository.Update 5 emptyState (samplePriv "missing-id" "Support" false false) =
      Except.ok emptyState :=
  C7_update_missing_id_noop_success emptyState
    (samplePriv "missing-id" "Support" false false) 5
    (by intro r hr; simp [emptyState] at hr)
    (by decide) (by decide) (by decide) (by decide) (by decide) (by decide) (by decide)


/-- C2: for every privilege input with at least one of create_user,
manage_privileges, delete_user, block_user, send_reset_password_email set
while view_all_users is false, both create and update fail with one of the
capability-dependency validation errors, and nothing is persisted (the
resulting state is unchanged). -/
theorem C2_capability_flags_require_view_access (p : Privilege) (st : State)
    (freshId : String) (now : Nat)
    (hflag : (p.createUser || p.managePrivileges || p.deleteUser || p.blockUser ||
        p.sendResetPasswordEmail) = true)
    (hview : p.viewAllUsers = false) :
    (∃ e, MongoRepository.Create freshId now st p = Except.error e ∧
        e ∈ ["Create access not allowed without view access",
             "Delete access not allowed without view access",
             "Manage privileges access not allowed without view access",
             "Block access not allowed without view access",
             "Send reset email access not allowed without view access"]) ∧
    (∃ e, MongoRepository.Update now st p = Except.error e ∧
        e ∈ ["Create access bot allowed without view access",
             "Delete access not allowed without view access",
             "Manage privileges access not allowed without view access",
             "Block access not allowed without view access",
             "Send reset email access not allowed without view access"]) ∧
    Op.apply st (Op.create p freshId now) = st ∧
    Op.apply st (Op.update p now) = st := by
  have hvalc : ∃ e, (({ p with id := freshId } : Privilege).prepare "create" now).validate
      "create" = Except.error e ∧
      e ∈ ["Create access not allowed without view access",
           "Delete access not allowed without view access",
           "Manage privileges access not allowed without view access",
           "Block access not allowed without view access",
           "Send reset email access not allowed without view access"] := by
    rw [prepare_create_eq, validate_create_eq]
    cases hcu : p.createUser <;> cases hdu : p.deleteUser <;>
      cases hmp : p.managePrivileges <;> cases hbu : p.blockUser <;>
      cases hse : p.sendResetPasswordEmail <;>
      simp_all
  have hvalu : ∃ e, (p.prepare "update" now).validate "update" = Except.error e ∧
      e ∈ ["Create access bot allowed without view access",
           "Delete access not allowed without view access",
           "Manage privileges access not allowed without view access",
           "Block access not allowed without view access",
           "Send reset email access not allowed without view access"] := by
    rw [prepare_update_eq, validate_update_eq]
    cases hcu : p.createUser <;> cases hdu : p.deleteUser <;>
      cases hmp : p.managePrivileges <;> cases hbu : p.blockUser <;>
      cases hse : p.sendResetPasswordEmail <;>
      simp_all
  obtain ⟨e1, he1, hm1⟩ := hvalc
  obtain ⟨e2, he2, hm2⟩ := hvalu
  have hcreate : MongoRepository.Create freshId now st p = Except.error e1 := by
    simp [MongoRepository.Create, he1]
  have hupdate : MongoRepository.Update now st p = Except.error e2 := by
    simp [MongoRepository.Update, he2]
  exact ⟨⟨e1, hcreate, hm1⟩, ⟨e2, hupdate, hm2⟩,
    by simp [Op.apply, hcreate], by simp [Op.apply, hupdate]⟩

theorem C2_capability_flags_require_view_access_witness :
    (∃ e, MongoRepository.Create "uuid-9" 3 emptyState
        { samplePriv "" "Support" false false with blockUser := true } = Except.error e ∧
        e ∈ ["Create access not allowed without view access",
             "Delete access not allowed without view access",
             "Manage privileges access not allowed without view access",
             "Block access not allowed without view access",
             "Send reset email access not allowed without view access"]) ∧
    (∃ e, MongoRepository.Update 3 emptyState
        { samplePriv "" "Support" false false with blockUser := true } = Except.error e ∧
        e ∈ ["Create access bot allowed without view access",
             "Delete access not allowed without view access",
             "Manage privileges access not allowed without view access",
             "Block access not allowed without view access",
             "Send reset email access not allowed without view access"]) ∧
    Op.apply emptyState (Op.create { samplePriv "" "Support" false false with blockUser := true }
        "uuid-9" 3) = emptyState ∧
    Op.apply emptyState (Op.update { samplePriv "" "Support" false false with blockUser := true }
        3) = emptyState :=
  C2_capability_flags_require_view_access
    { samplePriv "" "Support" false false with blockUser := true }
    emptyState "uuid-9" 3 (by decide) (by decide)

/-- C6: createDefault (and createRoot) first checks for its singleton via a
getDefault/getRoot lookup; if present it fails with the AlreadyExistsError
message and writes nothing (the error path performs no insert); if absent
it appends a record with the singleton flag set, the fixed capability
policy (default = all flags false, root = all flags true) and the freshly
drawn id; consequently a second invocation right after a successful first
one fails with the AlreadyExistsError message. -/
theorem C6_singleton_bootstrap_check_then_insert (st st' : State) (f1 f2 : String) :
    (∀ d, MongoRepository.GetDefault st = Except.ok d →
        MongoRepository.CreateDefault f1 st = Except.error "Default privilege already exists") ∧
    (∀ e, MongoRepository.GetDefault st = Except.error e →
        ∃ r, MongoRepository.CreateDefault f1 st =
            Except.ok { st with privileges := st.privileges ++ [r] } ∧
          r.id = f1 ∧ r.default = true ∧ r.root = false ∧
          r.viewAllUsers = false ∧ r.createUser = false ∧ r.managePrivileges = false ∧
          r.deleteUser = false ∧ r.blockUser = false ∧ r.sendResetPasswordEmail = false) ∧
    (MongoRepository.CreateDefault f1 st = Except.ok st' →
        MongoRepository.CreateDefault f2 st' = Except.error "Default privilege already exists") ∧
    (∀ d, MongoRepository.GetRoot st = Except.ok d →
        MongoRepository.CreateRoot f1 st = Except.error "Root privilege already exists") ∧
    (∀ e, MongoRepository.GetRoot st = Except.error e →
        ∃ r, MongoRepository.CreateRoot f1 st =
            Except.ok { st with privileges := st.privileges ++ [r] } ∧
          r.id = f1 ∧ r.root = true ∧ r.default = false ∧
          r.viewAllUsers = true ∧ r.createUser = true ∧ r.managePrivileges = true ∧
          r.deleteUser = true ∧ r.blockUser = true ∧ r.sendResetPasswordEmail = true) ∧
    (MongoRepository.CreateRoot f1 st = Except.ok st' →
        MongoRepository.CreateRoot f2 st' = Except.error "Root privilege already exists") := by
  refine ⟨?_, ?_, ?_, ?_, ?_, ?_⟩
  · intro d hd; simp [MongoRepository.CreateDefault, hd]
  · intro e he
    exact ⟨MongoRepository.defaultRecord f1,
      by simp [MongoRepository.CreateDefault, he],
      rfl, rfl, rfl, rfl, rfl, rfl, rfl, rfl, rfl⟩
  · intro hok
    cases hg : MongoRepository.GetDefault st with
    | ok d => simp [MongoRepository.CreateDefault, hg] at hok
    | error e =>
        have hfind : st.privileges.find? (fun r => r.default) = none := by
          revert hg
          unfold MongoRepository.GetDefault
          cases st.privileges.find? (fun r => r.default) <;> simp
        have hst' :
            st' = { st with privileges := st.privileges ++ [MongoRepository.defaultRecord f1] } := by
          simp [MongoRepository.CreateDefault, hg] at hok
          exact hok.symm
        rw [hst']
        simp [MongoRepository.CreateDefault, MongoRepository.GetDefault,
          List.find?_append, hfind, MongoRepository.defaultRecord]
  · intro d hd; simp [MongoRepository.CreateRoot, hd]
  · intro e he
    exact ⟨MongoRepository.rootRecord f1,
      by simp [MongoRepository.CreateRoot, he],
      rfl, rfl, rfl, rfl, rfl, rfl, rfl, rfl, rfl⟩
  · intro hok
    cases hg : MongoRepository.GetRoot st with
    | ok d => simp [MongoRepository.CreateRoot, hg] at hok
    | error e =>
        have hfind : st.privileges.find? (fun r => r.root) = none := by
          revert hg
          unfold MongoRepository.GetRoot
          cases st.privileges.find? (fun r => r.root) <;> simp
        have hst' :
            st' = { st with privileges := st.privileges ++ [MongoRepository.rootRecord f1] } := by
          simp [MongoRepository.CreateRoot, hg] at hok
          exact hok.symm
        rw [hst']
        simp [MongoRepository.CreateRoot, MongoRepository.GetRoot,
          List.find?_append, hfind, MongoRepository.rootRecord]

theorem C6_singleton_bootstrap_check_then_insert_witness :
    MongoRepository.CreateDefault "d2"
        { privileges := [MongoRepository.defaultRecord "d1"], users := [] } =
      Except.error "Default privilege already exists" ∧
    MongoRepository.CreateRoot "r2"
        { privileges := [MongoRepository.rootRecord "r1"], users := [] } =
      Except.error "Root privilege already exists" := by
  constructor
  · exact (C6_singleton_bootstrap_check_then_insert emptyState
      { privileges := [MongoRepository.defaultRecord "d1"], users := [] } "d1" "d2").2.2.1
      (by decide)
  · exact (C6_singleton_bootstrap_check_then_insert emptyState
      { privileges := [MongoRepository.rootRecord "r1"], users := [] } "r1" "r2").2.2.2.2.2
      (by decide)

/-- An authority environment whose dial, ping and token validation all
succeed and whose authority reports the given manage_privileges value. -/
def reachableAuthEnv (manage : Bool) : AuthEnv :=
  { userServiceIP := some "10.0.0.1"
    userServicePort := some "9000"
    dial := Except.ok
      { ping := Except.ok ()
        validateToken := fun _ => Except.ok { managePrivileges := manage } } }

/-- C5 counterexample: the code trims only SPACE characters
(`strings.Trim(token[0], " ")`), not all whitespace.  A token consisting of
a single tab is blank after trimming whitespace (every character of it is
whitespace), yet the gate does not fail with the missing-credential error:
with a granting authority it succeeds outright. -/
theorem C5_counterexample_whitespace_token_not_rejected :
    ("\t".data.all Char.isWhitespace = true) ∧
    validateTokenHelper (reachableAuthEnv true) (some [("token", ["\t"])]) =
      Except.ok () :=
  ⟨by decide, rfl⟩

/-- C5 amended: authorize fails with "Could not validate token" when the
metadata is absent, "Missing token header in context" when the token field
is absent, and "Token is empty" when the token is blank after trimming
SPACE characters (not all whitespace); when a non-blank token is present
and env vars, dial and ping succeed, and the authority answers, a
manage_privileges = false answer yields the forbidden error and a true
answer yields success. -/
theorem C5_authorize_cases (env : AuthEnv) (meta : List (String × List String))
    (t : String) (ts : List String) (client : UserClient) (info : TokenInfo) :
    (validateTokenHelper env none = Except.error "Could not validate token") ∧
    (mdGet meta "token" = [] →
      validateTokenHelper env (some meta) = Except.error "Missing token header in context") ∧
    (mdGet meta "token" = t :: ts → trimSpaces t = "" →
      validateTokenHelper env (some meta) = Except.error "Token is empty") ∧
    (mdGet meta "token" = t :: ts → trimSpaces t ≠ "" →
      env.userServiceIP.isSome = true → env.userServicePort.isSome = true →
      env.dial = Except.ok client → client.ping = Except.ok () →
      client.validateToken t = Except.ok info → info.managePrivileges = false →
      validateTokenHelper env (some meta) =
        Except.error "User not allowed to manage privileges") ∧
    (mdGet meta "token" = t :: ts → trimSpaces t ≠ "" →
      env.userServiceIP.isSome = true → env.userServicePort.isSome = true →
      env.dial = Except.ok client → client.ping = Except.ok () →
      client.validateToken t = Except.ok info → info.managePrivileges = true →
      validateTokenHelper env (some meta) = Except.ok ()) := by
  refine ⟨rfl, ?_, ?_, ?_, ?_⟩
  · intro h
    simp [validateTokenHelper, h]
  · intro h ht
    simp [validateTokenHelper, h, ht]
  · intro h ht hip hport hdial hping hvt hmp
    obtain ⟨ip, hip'⟩ := Option.isSome_iff_exists.mp hip
    obtain ⟨pt, hport'⟩ := Option.isSome_iff_exists.mp hport
    have ht' : (trimSpaces t == "") = false := beq_eq_false_iff_ne.mpr ht
    simp [validateTokenHelper, h, ht', hip', hport', hdial, hping, hvt, hmp]
  · intro h ht hip hport hdial hping hvt hmp
    obtain ⟨ip, hip'⟩ := Option.isSome_iff_exists.mp hip
    obtain ⟨pt, hport'⟩ := Option.isSome_iff_exists.mp hport
    have ht' : (trimSpaces t == "") = false := beq_eq_false_iff_ne.mpr ht
    simp [validateTokenHelper, h, ht', hip', hport', hdial, hping, hvt, hmp]

theorem C5_authorize_cases_witness :
    validateTokenHelper (reachableAuthEnv false) none =
      Except.error "Could not validate token" ∧
    validateTokenHelper (reachableAuthEnv false) (some [("token", ["abc"])]) =
      Except.error "User not allowed to manage privileges" ∧
    validateTokenHelper (reachableAuthEnv true) (some [("token", ["abc"])]) =
      Except.ok () := by
  refine ⟨?_, ?_, ?_⟩
  · exact (C5_authorize_cases (reachableAuthEnv false) [("token", ["abc"])] "abc" []
      { ping := Except.ok (), validateToken := fun _ => Except.ok { managePrivileges := false } }
      { managePrivileges := false }).1
  · exact (C5_authorize_cases (reachableAuthEnv false) [("token", ["abc"])] "abc" []
      { ping := Except.ok (), validateToken := fun _ => Except.ok { managePrivileges := false } }
      { managePrivileges := false }).2.2.2.1
      rfl (by decide) rfl rfl rfl rfl rfl rfl
  · exact (C5_authorize_cases (reachableAuthEnv true) [("token", ["abc"])] "abc" []
      { ping := Except.ok (), validateToken := fun _ => Except.ok { managePrivileges := true } }
      { managePrivileges := true }).2.2.2.2
      rfl (by decide) rfl rfl rfl rfl rfl rfl

/-- C3 counterexample: an input carrying is_default = true (valid flags,
non-empty name) is accepted by create, but the record fetched back by the
assigned id has is_default = false — it differs from the input in a field
other than the server-assigned id and the created_at/updated_at timestamps,
because `prepare("create")` forces the singleton flags to false. -/
theorem C3_counterexample_singleton_flag_not_roundtripped :
    (samplePriv "" "Sales" true false).default = true ∧
    MongoRepository.Create "fresh-id" 5 emptyState (samplePriv "" "Sales" true false) =
      Except.ok
        ({ privileges := [{ samplePriv "fresh-id" "Sales" false false with createdAt := 5, updatedAt := 5 }], users := [] },
         { samplePriv "fresh-id" "Sales" false false with createdAt := 5, updatedAt := 5 }) ∧
    MongoRepository.Get
        { privileges := [{ samplePriv "fresh-id" "Sales" false false with createdAt := 5, updatedAt := 5 }], users := [] }
        { samplePriv "fresh-id" "Sales" false false with createdAt := 5, updatedAt := 5 } =
      Except.ok { samplePriv "fresh-id" "Sales" false false with createdAt := 5, updatedAt := 5 } ∧
    ({ samplePriv "fresh-id" "Sales" false false with createdAt := 5, updatedAt := 5 } : Privilege).default = false := by
  exact ⟨rfl, by decide, by decide, rfl⟩

/-- C3 amended: for every input with valid flags and non-empty name (and a
non-empty fresh id and non-zero clock, which the uuid/clock always supply),
create succeeds, and fetching by the assigned id returns a record equal to
the input in name and the six capability flags, whose id and timestamps are
the non-empty/non-zero server-assigned ones, and whose is_default/is_root
flags are forced to false regardless of the input. -/
theorem C3_create_get_roundtrip (p : Privilege) (freshId : String) (now : Nat) (st : State)
    (hid : freshId ≠ "") (hnow : now ≠ 0) (hname : p.name ≠ "")
    (h1 : p.createUser = true → p.viewAllUsers = true)
    (h2 : p.deleteUser = true → p.viewAllUsers = true)
    (h3 : p.managePrivileges = true → p.viewAllUsers = true)
    (h4 : p.blockUser = true → p.viewAllUsers = true)
    (h5 : p.sendResetPasswordEmail = true → p.viewAllUsers = true)
    (hfresh : ∀ r ∈ st.privileges, r.id ≠ freshId) :
    ∃ st' p', MongoRepository.Create freshId now st p = Except.ok (st', p') ∧
      p'.id = freshId ∧ p'.createdAt = now ∧ p'.updatedAt = now ∧
      p'.id ≠ "" ∧ p'.createdAt ≠ 0 ∧ p'.updatedAt ≠ 0 ∧
      p'.name = p.name ∧ p'.viewAllUsers = p.viewAllUsers ∧
      p'.createUser = p.createUser ∧ p'.managePrivileges = p.managePrivileges ∧
      p'.deleteUser = p.deleteUser ∧ p'.blockUser = p.blockUser ∧
      p'.sendResetPasswordEmail = p.sendResetPasswordEmail ∧
      p'.default = false ∧ p'.root = false ∧
      MongoRepository.Get st' p' = Except.ok p' := by
  have hval : (({ p with id := freshId } : Privilege).prepare "create" now).validate
      "create" = Except.ok () := by
    rw [prepare_create_eq, validate_create_eq]
    have hnb : (p.name == "") = false := beq_eq_false_iff_ne.mpr hname
    have hib : ((freshId : String) == "") = false := beq_eq_false_iff_ne.mpr hid
    cases hcu : p.createUser <;> cases hdu : p.deleteUser <;>
      cases hmp : p.managePrivileges <;> cases hbu : p.blockUser <;>
      cases hse : p.sendResetPasswordEmail <;>
      simp_all
  refine ⟨{ st with privileges := st.privileges ++ [({ p with id := freshId } : Privilege).prepare "create" now] },
    ({ p with id := freshId } : Privilege).prepare "create" now,
    ?_, ?_, ?_, ?_, ?_, ?_, ?_, ?_, ?_, ?_, ?_, ?_, ?_, ?_, ?_, ?_, ?_⟩
  · simp [MongoRepository.Create, hval]
  · rw [prepare_create_eq]
  · rw [prepare_create_eq]
  · rw [prepare_create_eq]
  · rw [prepare_create_eq]; exact hid
  · rw [prepare_create_eq]; exact hnow
  · rw [prepare_create_eq]; exact hnow
  · rw [prepare_create_eq]
  · rw [prepare_create_eq]
  · rw [prepare_create_eq]
  · rw [prepare_create_eq]
  · rw [prepare_create_eq]
  · rw [prepare_create_eq]
  · rw [prepare_create_eq]
  · rw [prepare_create_eq]
  · rw [prepare_create_eq]
  · have hfind1 : st.privileges.find?
        (fun r => r.id == (({ p with id := freshId } : Privilege).prepare "create" now).id) = none := by
      rw [List.find?_eq_none]
      intro r hr
      rw [prepare_create_eq]
      simpa using hfresh r hr
    simp [MongoRepository.Get, List.find?_append, hfind1]

theorem C3_create_get_roundtrip_witness :
    MongoRepository.Get
        { privileges := [{ samplePriv "uuid-1" "Support" false false with viewAllUsers := true, blockUser := true, createdAt := 9, updatedAt := 9 }], users := [] }
        { samplePriv "uuid-1" "Support" false false with viewAllUsers := true, blockUser := true, createdAt := 9, updatedAt := 9 } =
      Except.ok { samplePriv "uuid-1" "Support" false false with viewAllUsers := true, blockUser := true, createdAt := 9, updatedAt := 9 } := by
  obtain ⟨st', p', hc, hrest⟩ :=
    C3_create_get_roundtrip
      { samplePriv "" "Support" false false with viewAllUsers := true, blockUser := true }
      "uuid-1" 9 emptyState (by decide) (by decide) (by decide)
      (by decide) (by decide) (by decide) (by decide) (by decide)
      (by intro r hr; simp [emptyState] at hr)
  have hget := hrest.2.2.2.2.2.2.2.2.2.2.2.2.2.2.2
  have hc2 : MongoRepository.Create "uuid-1" 9 emptyState
      { samplePriv "" "Support" false false with viewAllUsers := true, blockUser := true } =
      Except.ok
        ({ privileges := [{ samplePriv "uuid-1" "Support" false false with viewAllUsers := true, blockUser := true, createdAt := 9, updatedAt := 9 }], users := [] },
         { samplePriv "uuid-1" "Support" false false with viewAllUsers := true, blockUser := true, createdAt := 9, updatedAt := 9 }) := by
    decide
  have heq := Except.ok.inj (hc2.symm.trans hc)
  have hs := congrArg Prod.fst heq
  have hp := congrArg Prod.snd heq
  simp only at hs hp
  rw [← hs, ← hp] at hget
  exact hget

/-- Frame property of the `$set` document applied through `UpdateOne`:
every position keeps its id, created_at and singleton flags, and a position
whose id differs from the filter id is completely unchanged. -/
theorem updateSet_frame (l : List Privilege) (p : Privilege) (now : Nat) (i : Nat)
    (hi : i < l.length)
    (hi' : i < (updateFirst (fun r => r.id == p.id) (MongoRepository.updateSet p now) l).length) :
    ((updateFirst (fun r => r.id == p.id) (MongoRepository.updateSet p now) l)[i].id = l[i].id ∧
     (updateFirst (fun r => r.id == p.id) (MongoRepository.updateSet p now) l)[i].createdAt = l[i].createdAt ∧
     (updateFirst (fun r => r.id == p.id) (MongoRepository.updateSet p now) l)[i].default = l[i].default ∧
     (updateFirst (fun r => r.id == p.id) (MongoRepository.updateSet p now) l)[i].root = l[i].root) ∧
    (l[i].id ≠ p.id →
      (updateFirst (fun r => r.id == p.id) (MongoRepository.updateSet p now) l)[i] = l[i]) := by
  rcases updateFirst_getElem (fun r => r.id == p.id) (MongoRepository.updateSet p now)
      l i hi hi' with heq | ⟨heq, hpred⟩
  · rw [heq]
    exact ⟨⟨rfl, rfl, rfl, rfl⟩, fun _ => rfl⟩
  · constructor
    · rw [heq]
      exact ⟨rfl, rfl, rfl, rfl⟩
    · intro hne
      exact absurd (by simpa using hpred) hne

/-- C9: a successful update leaves the users collection untouched and, for
every stored privilege record, preserves id, created_at and the stored
default/root flags; every record whose id differs from the input's id is
completely unchanged (so only the matched record's name, capability flags
and updated_at can change). -/
theorem C9_update_frame (st st' : State) (q : Privilege) (now : Nat)
    (h : MongoRepository.Update now st q = Except.ok st') :
    st'.users = st.users ∧
    st'.privileges.length = st.privileges.length ∧
    ∀ i, ∀ hi : i < st.privileges.length, ∀ hi' : i < st'.privileges.length,
      ((st'.privileges[i]).id = (st.privileges[i]).id ∧
       (st'.privileges[i]).createdAt = (st.privileges[i]).createdAt ∧
       (st'.privileges[i]).default = (st.privileges[i]).default ∧
       (st'.privileges[i]).root = (st.privileges[i]).root) ∧
      ((st.privileges[i]).id ≠ q.id → st'.privileges[i] = st.privileges[i]) := by
  rw [MongoRepository.Update, prepare_update_eq] at h
  cases hv : ({ q with default := false, root := false, updatedAt := now } : Privilege).validate
      "update" with
  | error e => rw [hv] at h; cases h
  | ok u =>
      rw [hv] at h
      simp only [Except.ok.injEq] at h
      subst h
      refine ⟨rfl, updateFirst_length _ _ _, ?_⟩
      intro i hi hi'
      exact updateSet_frame st.privileges
        { q with default := false, root := false, updatedAt := now } now i hi hi'

theorem C9_update_frame_witness :
    ({ privileges := [{ samplePriv "a" "New" false false with updatedAt := 7 }], users := [] } : State).users =
      ({ privileges := [samplePriv "a" "Old" false false], users := [] } : State).users ∧
    ({ privileges := [{ samplePriv "a" "New" false false with updatedAt := 7 }], users := [] } : State).privileges.length =
      ({ privileges := [samplePriv "a" "Old" false false], users := [] } : State).privileges.length := by
  constructor
  · exact (C9_update_frame
      { privileges := [samplePriv "a" "Old" false false], users := [] }
      { privileges := [{ samplePriv "a" "New" false false with updatedAt := 7 }], users := [] }
      (samplePriv "a" "New" false false) 7 (by decide)).1
  · exact (C9_update_frame
      { privileges := [samplePriv "a" "Old" false false], users := [] }
      { privileges := [{ samplePriv "a" "New" false false with updatedAt := 7 }], users := [] }
      (samplePriv "a" "New" false false) 7 (by decide)).2.1

/-- C4: deleting a non-singleton privilege P present in the store first
looks up the default privilege, propagating its lookup error (with no
write) when the default is absent; on success it reassigns every user
whose privilege reference equals P's id to the default privilege's id
(stamping their update time), leaves other users untouched, and removes P,
so afterwards those users reference the default privilege's id and no
stored record carries P's id (ids being unique in the store). -/
theorem C4_delete_reassigns_users_then_removes (st : State) (p : Privilege) (now : Nat)
    (hmem : p ∈ st.privileges) (hdef : p.default = false) (hroot : p.root = false)
    (hnodup : (st.privileges.map Privilege.id).Nodup) :
    (∀ e, MongoRepository.GetDefault st = Except.error e →
        MongoRepository.Delete now st p = Except.error e) ∧
    (∀ d, MongoRepository.GetDefault st = Except.ok d →
      ∃ st', MongoRepository.Delete now st p = Except.ok st' ∧
        (∀ u ∈ st.users, u.privilegeId = p.id →
            ({ u with privilegeId := d.id, updatedAt := now } : User) ∈ st'.users) ∧
        (∀ u ∈ st.users, u.privilegeId ≠ p.id → u ∈ st'.users) ∧
        (∀ r ∈ st'.privileges, r.id ≠ p.id) ∧
        (∀ r ∈ st.privileges, r.id ≠ p.id → r ∈ st'.privileges)) := by
  have hval : p.validate "delete" = Except.ok () := by
    rw [validate_delete_eq, hdef, hroot]
    simp
  refine ⟨?_, ?_⟩
  · intro e he
    simp [MongoRepository.Delete, hval, he]
  · intro d hd
    refine ⟨State.mk (deleteFirst (fun r => r.id == p.id) st.privileges)
        (st.users.map (fun u => if u.privilegeId == p.id then { u with privilegeId := d.id, updatedAt := now } else u)),
      ?_, ?_, ?_, ?_, ?_⟩
    · simp [MongoRepository.Delete, hval, hd]
    · intro u hu hupid
      refine List.mem_map.mpr ⟨u, hu, ?_⟩
      have : (u.privilegeId == p.id) = true := by simpa using hupid
      simp [this]
    · intro u hu hne
      refine List.mem_map.mpr ⟨u, hu, ?_⟩
      have : (u.privilegeId == p.id) = false := by simpa using hne
      simp [this]
    · exact deleteFirst_id_absent st.privileges p.id hnodup ⟨p, hmem, rfl⟩
    · intro r hr hne
      exact mem_deleteFirst_of_pred_false hr (by simpa using hne)

theorem C4_delete_reassigns_users_then_removes_witness :
    MongoRepository.Delete 3
        { privileges := [samplePriv "p1" "Basic" false false], users := [] }
        (samplePriv "p1" "Basic" false false) =
      Except.error "mongo: no documents in result" := by
  exact (C4_delete_reassigns_users_then_removes
    { privileges := [samplePriv "p1" "Basic" false false], users := [] }
    (samplePriv "p1" "Basic" false false) 3
    (by simp) (by decide) (by decide) (by simp)).1
    "mongo: no documents in result" (by decide)

/-- Every single store operation preserves "at most one default record" and
"at most one root record". -/
theorem apply_preserves_counts (st : State) (op : Op)
    (hd : countDefault st ≤ 1) (hr : countRoot st ≤ 1) :
    countDefault (Op.apply st op) ≤ 1 ∧ countRoot (Op.apply st op) ≤ 1 := by
  cases op with
  | create p freshId now =>
      cases hv : (({ p with id := freshId } : Privilege).prepare "create" now).validate
          "create" with
      | error e =>
          have hnoop : Op.apply st (Op.create p freshId now) = st := by
            simp [Op.apply, MongoRepository.Create, hv]
          rw [hnoop]; exact ⟨hd, hr⟩
      | ok u =>
          have happ : Op.apply st (Op.create p freshId now) =
              State.mk (st.privileges ++ [({ p with id := freshId } : Privilege).prepare "create" now]) st.users := by
            simp [Op.apply, MongoRepository.Create, hv]
          rw [happ]
          constructor
          · have hcd : countDefault (State.mk (st.privileges ++ [({ p with id := freshId } : Privilege).prepare "create" now]) st.users) = countDefault st := by
              simp [countDefault, List.countP_append, prepare_create_eq, List.countP_cons]
            rw [hcd]; exact hd
          · have hcr : countRoot (State.mk (st.privileges ++ [({ p with id := freshId } : Privilege).prepare "create" now]) st.users) = countRoot st := by
              simp [countRoot, List.countP_append, prepare_create_eq, List.countP_cons]
            rw [hcr]; exact hr
  | createDefault freshId =>
      cases hg : MongoRepository.GetDefault st with
      | ok d =>
          have hnoop : Op.apply st (Op.createDefault freshId) = st := by
            simp [Op.apply, MongoRepository.CreateDefault, hg]
          rw [hnoop]; exact ⟨hd, hr⟩
      | error e =>
          have hfind : st.privileges.find? (fun r => r.default) = none := by
            revert hg
            unfold MongoRepository.GetDefault
            cases st.privileges.find? (fun r => r.default) <;> simp
          have hzero : st.privileges.countP (fun r => r.default) = 0 := by
            rw [List.countP_eq_zero]
            intro a ha
            exact List.find?_eq_none.mp hfind a ha
          have happ : Op.apply st (Op.createDefault freshId) =
              State.mk (st.privileges ++ [MongoRepository.defaultRecord freshId]) st.users := by
            simp [Op.apply, MongoRepository.CreateDefault, hg]
          rw [happ]
          constructor
          · simp [countDefault, List.countP_append, MongoRepository.defaultRecord,
              List.countP_cons, hzero]
          · have hcr : countRoot (State.mk (st.privileges ++ [MongoRepository.defaultRecord freshId]) st.users) = countRoot st := by
              simp [countRoot, List.countP_append, MongoRepository.defaultRecord, List.countP_cons]
            rw [hcr]; exact hr
  | createRoot freshId =>
      cases hg : MongoRepository.GetRoot st with
      | ok d =>
          have hnoop : Op.apply st (Op.createRoot freshId) = st := by
            simp [Op.apply, MongoRepository.CreateRoot, hg]
          rw [hnoop]; exact ⟨hd, hr⟩
      | error e =>
          have hfind : st.privileges.find? (fun r => r.root) = none := by
            revert hg
            unfold MongoRepository.GetRoot
            cases st.privileges.find? (fun r => r.root) <;> simp
          have hzero : st.privileges.countP (fun r => r.root) = 0 := by
            rw [List.countP_eq_zero]
            intro a ha
            exact List.find?_eq_none.mp hfind a ha
          have happ : Op.apply st (Op.createRoot freshId) =
              State.mk (st.privileges ++ [MongoRepository.rootRecord freshId]) st.users := by
            simp [Op.apply, MongoRepository.CreateRoot, hg]
          rw [happ]
          constructor
          · have hcd : countDefault (State.mk (st.privileges ++ [MongoRepository.rootRecord freshId]) st.users) = countDefault st := by
              simp [countDefault, List.countP_append, MongoRepository.rootRecord, List.countP_cons]
            rw [hcd]; exact hd
          · simp [countRoot, List.countP_append, MongoRepository.rootRecord,
              List.countP_cons, hzero]
  | update p now =>
      cases hv : (p.prepare "update" now).validate "update" with
      | error e =>
          have hnoop : Op.apply st (Op.update p now) = st := by
            simp [Op.apply, MongoRepository.Update, hv]
          rw [hnoop]; exact ⟨hd, hr⟩
      | ok u =>
          have happ : Op.apply st (Op.update p now) =
              State.mk (updateFirst (fun r => r.id == (p.prepare "update" now).id)
                (MongoRepository.updateSet (p.prepare "update" now) now) st.privileges) st.users := by
            simp [Op.apply, MongoRepository.Update, hv]
          rw [happ]
          constructor
          · have hcd : countDefault (State.mk (updateFirst (fun r => r.id == (p.prepare "update" now).id) (MongoRepository.updateSet (p.prepare "update" now) now) st.privileges) st.users) = countDefault st := by
              show List.countP (fun r => r.default) (updateFirst (fun r => r.id == (p.prepare "update" now).id) (MongoRepository.updateSet (p.prepare "update" now) now) st.privileges) = List.countP (fun r => r.default) st.privileges
              exact updateFirst_countP (fun (r : Privilege) => r.id == (p.prepare "update" now).id)
                (fun (r : Privilege) => r.default) (MongoRepository.updateSet (p.prepare "update" now) now)
                (fun x => rfl) st.privileges
            rw [hcd]; exact hd
          · have hcr : countRoot (State.mk (updateFirst (fun r => r.id == (p.prepare "update" now).id) (MongoRepository.updateSet (p.prepare "update" now) now) st.privileges) st.users) = countRoot st := by
              show List.countP (fun r => r.root) (updateFirst (fun r => r.id == (p.prepare "update" now).id) (MongoRepository.updateSet (p.prepare "update" now) now) st.privileges) = List.countP (fun r => r.root) st.privileges
              exact updateFirst_countP (fun (r : Privilege) => r.id == (p.prepare "update" now).id)
                (fun (r : Privilege) => r.root) (MongoRepository.updateSet (p.prepare "update" now) now)
                (fun x => rfl) st.privileges
            rw [hcr]; exact hr
  | delete p now =>
      cases hv : p.validate "delete" with
      | error e =>
          have hnoop : Op.apply st (Op.delete p now) = st := by
            simp [Op.apply, MongoRepository.Delete, hv]
          rw [hnoop]; exact ⟨hd, hr⟩
      | ok u =>
          cases hg : MongoRepository.GetDefault st with
          | error e =>
              have hnoop : Op.apply st (Op.delete p now) = st := by
                simp [Op.apply, MongoRepository.Delete, hv, hg]
              rw [hnoop]; exact ⟨hd, hr⟩
          | ok d =>
              have happ : Op.apply st (Op.delete p now) =
                  State.mk (deleteFirst (fun r => r.id == p.id) st.privileges)
                    (st.users.map (fun u => if u.privilegeId == p.id then { u with privilegeId := d.id, updatedAt := now } else u)) := by
                simp [Op.apply, MongoRepository.Delete, hv, hg]
              rw [happ]
              exact ⟨le_trans (deleteFirst_countP_le _ _ _) hd,
                le_trans (deleteFirst_countP_le _ _ _) hr⟩

/-- Running a sequence of operations from any state within the invariant
keeps both counts at most one. -/
theorem runOps_preserves_counts (ops : List Op) :
    ∀ st, countDefault st ≤ 1 → countRoot st ≤ 1 →
      countDefault (runOps st ops) ≤ 1 ∧ countRoot (runOps st ops) ≤ 1 := by
  induction ops with
  | nil => intro st hd hr; exact ⟨hd, hr⟩
  | cons op ops ih =>
      intro st hd hr
      obtain ⟨hd', hr'⟩ := apply_preserves_counts st op hd hr
      exact ih (Op.apply st op) hd' hr'

/-- C8: in every state reachable from the empty store by any sequence of
create, createDefault, createRoot, update and delete operations executed
sequentially, at most one stored record has default = true and at most one
has root = true. -/
theorem C8_at_most_one_default_and_one_root (ops : List Op) :
    countDefault (runOps emptyState ops) ≤ 1 ∧ countRoot (runOps emptyState ops) ≤ 1 :=
  runOps_preserves_counts ops emptyState (by decide) (by decide)
